import Mathlib

open Real

/-! # Heritaguessr scoring and session logic

Shallow embedding of the scoring / session state machine of the
Heritaguessr quiz (`src/App.tsx`): the Fisher–Yates shuffle
(`shuffleArray`), the great-circle distance (`haversineDistance`),
the exponential-decay scoring function (`calculateScore`), and the
guess-submission state transition (`handleGuess`), together with
theorems about them. -/

/-- Site record, from `interface Location` in the source. -/
structure Location where
  lname : String
  lat : ℝ
  lon : ℝ

/-- JavaScript `Math.atan2 y x` on real numbers (the sign conventions of the
IEEE special cases at `±0` collapse to the plain-real ones). -/
noncomputable def atan2 (y x : ℝ) : ℝ :=
  if 0 < x then arctan (y / x)
  else if x < 0 ∧ 0 ≤ y then arctan (y / x) + π
  else if x < 0 then arctan (y / x) - π
  else if 0 < y then π / 2
  else if y < 0 then -(π / 2)
  else 0

/-- `haversineDistance` from the source: great-circle distance in kilometres
between two (latitude, longitude) pairs given in degrees, with Earth radius
`R = 6371e3` metres. -/
noncomputable def haversineDistance (lat1 lon1 lat2 lon2 : ℝ) : ℝ :=
  let R : ℝ := 6371e3
  let p1 := lat1 * π / 180
  let p2 := lat2 * π / 180
  let dp := (lat2 - lat1) * π / 180
  let dl := (lon2 - lon1) * π / 180
  let a := sin (dp / 2) * sin (dp / 2) +
    cos p1 * cos p2 * sin (dl / 2) * sin (dl / 2)
  let c := 2 * atan2 (sqrt a) (sqrt (1 - a))
  R * c / 1000

/-- The default value of the `size` parameter of `calculateScore`. -/
noncomputable def defaultSize : ℝ := 3176.862

/-- `calculateScore` from the source: `Math.round(50 * Math.exp(-10 * distance / size))`.
`Math.round` rounds half-way cases toward `+∞`, as does Mathlib's `round`. -/
noncomputable def calculateScore (distance : ℝ) (size : ℝ) : ℤ :=
  round (50 * exp (-10 * distance / size))

/-- The site catalog literal passed to `shuffleArray` at module load. -/
noncomputable def baseAnswers : List Location :=
  [⟨("Fort Louisbourg"), 45.8922, -59.9855⟩,
   ⟨("Start of St. Lawrence Seaway"), 42.891411, -79.251964⟩,
   ⟨("Rideau Canal"), 45.422164, -75.691664⟩,
   ⟨("Plains of Abraham"), 46.8015, -71.2201⟩,
   ⟨("End of St. Lawrence Seaway"), 45.508888, -73.561668⟩]

/-- One swap of the Fisher–Yates loop body:
`[shuffled[i], shuffled[j]] = [shuffled[j], shuffled[i]]`. -/
def swapAt {α : Type} (l : List α) (i j : ℕ) : List α :=
  match l.get? i, l.get? j with
  | some a, some b => (l.set i b).set j a
  | _, _ => l

/-- The Fisher–Yates loop of `shuffleArray`: iterates `i` from `n` down to `1`,
swapping position `i` with position `rand i % (i + 1)`.  The draw
`Math.floor(Math.random() * (i + 1))` is modelled by an arbitrary sequence of
naturals reduced mod `i + 1`, which realises exactly the values `0 … i`. -/
def shuffleLoop {α : Type} (rand : ℕ → ℕ) : ℕ → List α → List α
  | 0, l => l
  | i + 1, l => shuffleLoop rand i (swapAt l (i + 1) (rand (i + 1) % (i + 2)))

/-- `shuffleArray` from the source, parameterised by the random draw sequence. -/
def shuffleArray {α : Type} (rand : ℕ → ℕ) (l : List α) : List α :=
  shuffleLoop rand (l.length - 1) l

/-- The value shown in the score dialog: `useState<number | string>` in the
source, so either an integer or a text message. -/
inductive ScoreVal where
  | num : ℤ → ScoreVal
  | txt : String → ScoreVal

/-- The component state of `App` that `handleGuess` reads or writes. -/
structure AppState where
  currentIndex : ℕ
  score : ScoreVal
  totalScore : ℤ
  scoreAnimation : String
  isDone : ℕ
  userGuess : Option (ℝ × ℝ)
  showCorrect : Bool
  correctLocation : Option Location

/-- The initial state of the `useState` hooks in `App`. -/
def initState : AppState :=
  ⟨0, ScoreVal.txt ("0"), 0, (""), 0, none, false, none⟩

/-- `handleGuess` from the source, as a state transition.  React state updates
within the handler are batched; the resulting state after the handler runs is
computed with the pre-call values of `isDone`, `currentIndex` and `totalScore`
(the source reads only those, and uses a functional update for `totalScore`). -/
noncomputable def handleGuess (answers : List Location) (s : AppState)
    (playerLat playerLon : ℝ) : AppState :=
  if s.isDone = 1 then s
  else
    let correct := answers.getD s.currentIndex ⟨(""), 0, 0⟩
    let dist := haversineDistance correct.lat correct.lon playerLat playerLon
    let roundScore := calculateScore dist defaultSize
    -- the unconditional setters
    let s1 : AppState :=
      ⟨s.currentIndex, ScoreVal.num roundScore, s.totalScore + roundScore,
       ("score-animation"), s.isDone, some (playerLat, playerLon), true, some correct⟩
    -- `currentIndex + 1 >= answers.length`: mark done, show the summary text
    let s2 : AppState :=
      if s.currentIndex + 1 ≥ answers.length then
        ⟨s1.currentIndex,
         ScoreVal.txt ("You won with a score of " ++ toString (s.totalScore + roundScore) ++ "!"),
         s1.totalScore, ("done-animation"), 1, s1.userGuess, s1.showCorrect,
         s1.correctLocation⟩
      else s1
    -- `currentIndex + 1 < answers.length`: advance to the next round
    if s.currentIndex + 1 < answers.length then
      ⟨s2.currentIndex + 1, s2.score, s2.totalScore, s2.scoreAnimation, s2.isDone,
       s2.userGuess, s2.showCorrect, s2.correctLocation⟩
    else s2

/-- Iterate `handleGuess` over a list of click coordinates. -/
noncomputable def runGuesses (answers : List Location) :
    AppState → List (ℝ × ℝ) → AppState
  | s, [] => s
  | s, g :: gs => runGuesses answers (handleGuess answers s g.1 g.2) gs

/-- The score a single guess earns against a given target site. -/
noncomputable def roundScoreOf (target : Location) (g : ℝ × ℝ) : ℤ :=
  calculateScore (haversineDistance target.lat target.lon g.1 g.2) defaultSize

/-- The per-round scores of a guess sequence played against a site list. -/
noncomputable def roundScores (sites : List Location) (guesses : List (ℝ × ℝ)) : List ℤ :=
  (sites.zip guesses).map (fun p => roundScoreOf p.1 p.2)

/-- `round` is monotone. -/
lemma round_le_round {x y : ℝ} (h : x ≤ y) : round x ≤ round y := by
  rw [round_eq, round_eq]
  exact Int.floor_le_floor (by linarith)

/-- A perfect guess scores 50 points. -/
lemma calculateScore_zero : calculateScore 0 defaultSize = 50 := by
  have h : (-10 : ℝ) * 0 / defaultSize = 0 := by norm_num
  unfold calculateScore
  rw [h, Real.exp_zero, mul_one, round_eq, Int.floor_eq_iff]
  constructor <;> norm_num

/-- C2: a guess submitted while the session is complete (`isDone = 1`) leaves
every field of the state unchanged and signals nothing. -/
theorem guess_after_completion_noop (answers : List Location) (s : AppState)
    (lat lon : ℝ) (h : s.isDone = 1) :
    handleGuess answers s lat lon = s := by
  unfold handleGuess
  rw [if_pos h]

/-- Witness for `guess_after_completion_noop` at a concrete completed state. -/
theorem guess_after_completion_noop_witness :
    handleGuess baseAnswers ⟨4, ScoreVal.txt ("done"), 120, (""), 1, none, false, none⟩ 0 0 =
      ⟨4, ScoreVal.txt ("done"), 120, (""), 1, none, false, none⟩ :=
  guess_after_completion_noop baseAnswers _ 0 0 rfl

/-- C3: `calculateScore` is literally `round (50 * exp (-10 * d / size))` with
default scale `3176.862`, and a zero distance scores exactly 50 points. -/
theorem score_formula_default_scale :
    (∀ d : ℝ, calculateScore d defaultSize = round (50 * exp (-10 * d / 3176.862))) ∧
      calculateScore 0 defaultSize = 50 := by
  constructor
  · intro d
    rfl
  · exact calculateScore_zero

/-- C7: `haversineDistance` is symmetric in its two coordinate pairs. -/
theorem haversine_symm (lat1 lon1 lat2 lon2 : ℝ) :
    haversineDistance lat1 lon1 lat2 lon2 = haversineDistance lat2 lon2 lat1 lon1 := by
  unfold haversineDistance
  dsimp only
  have hdp : (lat1 - lat2) * π / 180 / 2 = -((lat2 - lat1) * π / 180 / 2) := by ring
  have hdl : (lon1 - lon2) * π / 180 / 2 = -((lon2 - lon1) * π / 180 / 2) := by ring
  rw [hdp, hdl, Real.sin_neg, Real.sin_neg]
  ring_nf

/-- C4: the scoring function is monotonically non-increasing on nonnegative
distances, and its value lies in `[0, 50]` there. -/
theorem score_monotone_bounded :
    (∀ d1 d2 : ℝ, 0 ≤ d1 → d1 ≤ d2 →
      calculateScore d2 defaultSize ≤ calculateScore d1 defaultSize) ∧
    (∀ d : ℝ, 0 ≤ d →
      0 ≤ calculateScore d defaultSize ∧ calculateScore d defaultSize ≤ 50) := by
  have hs : (0:ℝ) < defaultSize := by norm_num [defaultSize]
  constructor
  · intro d1 d2 _ h12
    unfold calculateScore
    apply round_le_round
    have harg : (-10) * d2 / defaultSize ≤ (-10) * d1 / defaultSize :=
      (div_le_div_iff_of_pos_right hs).mpr (by linarith)
    have := Real.exp_le_exp.mpr harg
    linarith
  · intro d hd
    unfold calculateScore
    have hv0 : (0:ℝ) ≤ 50 * exp (-10 * d / defaultSize) := by positivity
    have hv50 : 50 * exp (-10 * d / defaultSize) ≤ 50 := by
      have harg : (-10) * d / defaultSize ≤ 0 := by
        apply div_nonpos_of_nonpos_of_nonneg <;> [linarith; linarith]
      have := Real.exp_le_one_iff.mpr harg
      linarith
    constructor
    · have := round_le_round hv0
      rwa [round_zero] at this
    · have := round_le_round hv50
      rwa [round_ofNat] at this

/-- Witness for `score_monotone_bounded` at distances 0 and 1. -/
theorem score_monotone_bounded_witness :
    calculateScore 1 defaultSize ≤ calculateScore 0 defaultSize ∧
      0 ≤ calculateScore 1 defaultSize ∧ calculateScore 1 defaultSize ≤ 50 :=
  ⟨score_monotone_bounded.1 0 1 (by norm_num) (by norm_num),
   score_monotone_bounded.2 1 (by norm_num)⟩

/-- C6: the distance from any point to itself is zero, and in particular a
guess exactly on the Rideau Canal site is at distance 0 and scores 50. -/
theorem distance_self_zero :
    (∀ lat lon : ℝ, haversineDistance lat lon lat lon = 0) ∧
    haversineDistance 45.422164 (-75.691664) 45.422164 (-75.691664) = 0 ∧
    calculateScore (haversineDistance 45.422164 (-75.691664) 45.422164 (-75.691664))
      defaultSize = 50 := by
  have hall : ∀ lat lon : ℝ, haversineDistance lat lon lat lon = 0 := by
    intro lat lon
    unfold haversineDistance
    dsimp only
    rw [sub_self, sub_self, zero_mul, zero_div, zero_div, Real.sin_zero]
    norm_num [atan2, Real.arctan_zero]
  refine ⟨hall, hall _ _, ?_⟩
  rw [hall _ _]
  exact calculateScore_zero

/-- Counterexample to "any negative distance scores more than 50": at
`d = -1/1000 < 0` the score is still exactly 50. -/
theorem small_negative_distance_scores_fifty :
    (-(1/1000) : ℝ) < 0 ∧ calculateScore (-(1/1000)) defaultSize = 50 := by
  refine ⟨by norm_num, ?_⟩
  unfold calculateScore
  have harg : (-10 : ℝ) * (-(1/1000)) / defaultSize = 1 / 317686.2 := by
    norm_num [defaultSize]
  rw [harg]
  have hq0 : (0:ℝ) ≤ 1 / 317686.2 := by norm_num
  have hq1 : |(1 / 317686.2 : ℝ)| ≤ 1 := by
    rw [abs_of_nonneg hq0]; norm_num
  have hlow : (1:ℝ) ≤ exp (1 / 317686.2) := Real.one_le_exp hq0
  have hupper : exp (1 / 317686.2 : ℝ) ≤ 1 + 1 / 100000 := by
    have hb := @Real.exp_bound (1 / 317686.2 : ℝ) hq1 1 one_pos
    rw [abs_of_nonneg hq0] at hb
    simp only [Finset.sum_range_one, pow_zero, pow_one] at hb
    have h2 := (abs_le.mp hb).2
    norm_num at h2 ⊢
    linarith
  rw [round_eq, Int.floor_eq_iff]
  constructor
  · push_cast
    nlinarith
  · push_cast
    nlinarith

/-- C10 (amended): the scoring function does not clamp above 50: a distance of
`-317.6862` (where the decay exponent is exactly `1`) scores `round (50 e) = 136 > 50`.
The `[0, 50]` range requires the unchecked precondition `distance ≥ 0`. -/
theorem negative_distance_score_exceeds_fifty :
    (-317.6862 : ℝ) < 0 ∧ 50 < calculateScore (-317.6862) defaultSize := by
  refine ⟨by norm_num, ?_⟩
  unfold calculateScore
  have harg : (-10 : ℝ) * (-317.6862) / defaultSize = 1 := by
    norm_num [defaultSize]
  rw [harg]
  have he : (2.7182818283 : ℝ) < exp 1 := Real.exp_one_gt_d9
  have h50 : (135:ℝ) < 50 * exp 1 := by nlinarith
  have : (51:ℤ) ≤ round ((50:ℝ) * exp 1) := by
    rw [round_eq]
    apply Int.le_floor.mpr
    push_cast
    linarith
  omega

/-- Moving the element at position `m` to the front while writing `c` in its
place is a permutation of putting `c` at the front. -/
lemma cons_set_perm {α : Type} :
    ∀ (xs : List α) (m : ℕ) (b c : α), xs[m]? = some b →
      List.Perm (b :: xs.set m c) (c :: xs) := by
  intro xs
  induction xs with
  | nil => intro m b c h; simp at h
  | cons y ys ih =>
    intro m b c h
    cases m with
    | zero =>
      have hyb : y = b := by simpa using h
      subst hyb
      simpa using List.Perm.swap c y ys
    | succ k =>
      have hk : ys[k]? = some b := by simpa using h
      have h1 : List.Perm (b :: y :: ys.set k c) (y :: b :: ys.set k c) :=
        List.Perm.swap y b _
      have h2 : List.Perm (y :: b :: ys.set k c) (y :: c :: ys) :=
        List.Perm.cons y (ih k b c hk)
      have h3 : List.Perm (y :: c :: ys) (c :: y :: ys) := List.Perm.swap c y ys
      simpa using (h1.trans h2).trans h3

/-- Exchanging the entries at two valid positions is a permutation. -/
lemma set_set_perm {α : Type} :
    ∀ (l : List α) (i j : ℕ) (a b : α), l[i]? = some a → l[j]? = some b →
      List.Perm ((l.set i b).set j a) l := by
  intro l
  induction l with
  | nil => intro i j a b h; simp at h
  | cons x xs ih =>
    intro i j a b ha hb
    cases i with
    | zero =>
      have hxa : x = a := by simpa using ha
      subst hxa
      cases j with
      | zero =>
        have hxb : x = b := by simpa using hb
        subst hxb
        simp
      | succ m =>
        have hm : xs[m]? = some b := by simpa using hb
        simpa using cons_set_perm xs m b x hm
    | succ k =>
      have hk : xs[k]? = some a := by simpa using ha
      cases j with
      | zero =>
        have hxb : x = b := by simpa using hb
        subst hxb
        simpa using cons_set_perm xs k a x hk
      | succ m =>
        have hm : xs[m]? = some b := by simpa using hb
        simpa using List.Perm.cons x (ih k m a b hk hm)

/-- A single Fisher–Yates swap is a permutation. -/
lemma swapAt_perm {α : Type} (l : List α) (i j : ℕ) :
    List.Perm (swapAt l i j) l := by
  unfold swapAt
  cases h1 : l.get? i with
  | none => cases h2 : l.get? j <;> simp
  | some a =>
    cases h2 : l.get? j with
    | none => simp
    | some b =>
      have h1' : l[i]? = some a := by simpa [List.get?_eq_getElem?] using h1
      have h2' : l[j]? = some b := by simpa [List.get?_eq_getElem?] using h2
      simpa using set_set_perm l i j a b h1' h2'

/-- The whole Fisher–Yates loop is a permutation. -/
lemma shuffleLoop_perm {α : Type} (rand : ℕ → ℕ) :
    ∀ (n : ℕ) (l : List α), List.Perm (shuffleLoop rand n l) l := by
  intro n
  induction n with
  | zero => intro l; simp [shuffleLoop]
  | succ i ih =>
    intro l
    exact (ih _).trans (swapAt_perm l (i + 1) (rand (i + 1) % (i + 2)))

/-- C8: for every input list and every sequence of random draws,
`shuffleArray` returns a permutation of its input: the output has the same
multiset of elements, and each element keeps its multiplicity. -/
theorem shuffleArray_is_permutation {α : Type} [DecidableEq α]
    (rand : ℕ → ℕ) (l : List α) :
    List.Perm (shuffleArray rand l) l ∧
      ∀ x : α, (shuffleArray rand l).count x = l.count x := by
  have hp : List.Perm (shuffleArray rand l) l := shuffleLoop_perm rand _ l
  exact ⟨hp, fun x => hp.count_eq x⟩

/-- Witness for `shuffleArray_is_permutation` on a concrete list and draw
sequence. -/
theorem shuffleArray_is_permutation_witness :
    List.Perm (shuffleArray (fun i => 7 * i + 3) [10, 20, 30, 40, 50]) [10, 20, 30, 40, 50] ∧
      ∀ x : ℕ, (shuffleArray (fun i => 7 * i + 3) [10, 20, 30, 40, 50]).count x =
        List.count x [10, 20, 30, 40, 50] :=
  shuffleArray_is_permutation (fun i => 7 * i + 3) [10, 20, 30, 40, 50]

/-- Unfolding `handleGuess` on the last round: the session completes. -/
lemma handleGuess_last (answers : List Location) (s : AppState) (lat lon : ℝ)
    (h0 : ¬ s.isDone = 1) (hge : answers.length ≤ s.currentIndex + 1) :
    handleGuess answers s lat lon =
      ⟨s.currentIndex,
       ScoreVal.txt ("You won with a score of " ++
         toString (s.totalScore +
           roundScoreOf (answers.getD s.currentIndex ⟨(""), 0, 0⟩) (lat, lon)) ++ "!"),
       s.totalScore + roundScoreOf (answers.getD s.currentIndex ⟨(""), 0, 0⟩) (lat, lon),
       ("done-animation"), 1, some (lat, lon), true,
       some (answers.getD s.currentIndex ⟨(""), 0, 0⟩)⟩ := by
  unfold handleGuess roundScoreOf
  rw [if_neg h0]
  dsimp only
  rw [if_pos hge, if_neg (not_lt.mpr hge)]

/-- Unfolding `handleGuess` on a non-final round: advance to the next round. -/
lemma handleGuess_step (answers : List Location) (s : AppState) (lat lon : ℝ)
    (h0 : ¬ s.isDone = 1) (hlt : s.currentIndex + 1 < answers.length) :
    handleGuess answers s lat lon =
      ⟨s.currentIndex + 1,
       ScoreVal.num (roundScoreOf (answers.getD s.currentIndex ⟨(""), 0, 0⟩) (lat, lon)),
       s.totalScore + roundScoreOf (answers.getD s.currentIndex ⟨(""), 0, 0⟩) (lat, lon),
       ("score-animation"), s.isDone, some (lat, lon), true,
       some (answers.getD s.currentIndex ⟨(""), 0, 0⟩)⟩ := by
  unfold handleGuess roundScoreOf
  rw [if_neg h0]
  dsimp only
  rw [if_neg (not_le.mpr hlt), if_pos hlt]

/-- Running a session from any live state through exactly the remaining number
of rounds completes it, accumulating the per-round scores, and the final
summary text carries the final cumulative score. -/
lemma runGuesses_complete (answers : List Location) :
    ∀ (guesses : List (ℝ × ℝ)) (s : AppState),
      s.isDone = 0 →
      s.currentIndex + guesses.length = answers.length →
      guesses ≠ [] →
      (runGuesses answers s guesses).isDone = 1 ∧
      (runGuesses answers s guesses).totalScore =
        s.totalScore + (roundScores (answers.drop s.currentIndex) guesses).sum ∧
      (runGuesses answers s guesses).score =
        ScoreVal.txt ("You won with a score of " ++
          toString (s.totalScore +
            (roundScores (answers.drop s.currentIndex) guesses).sum) ++ "!") := by
  intro guesses
  induction guesses with
  | nil => intro s _ _ hne; exact absurd rfl hne
  | cons g gs ih =>
    intro s h0 hlen _
    have h0' : ¬ s.isDone = 1 := by omega
    have hidx : s.currentIndex < answers.length := by
      simp only [List.length_cons] at hlen; omega
    have hdropEq : answers.drop s.currentIndex =
        answers.getD s.currentIndex ⟨(""), 0, 0⟩ :: answers.drop (s.currentIndex + 1) := by
      rw [List.getD_eq_getElem _ _ hidx]
      exact List.drop_eq_getElem_cons hidx
    cases gs with
    | nil =>
      have hEq : s.currentIndex + 1 = answers.length := by
        simpa using hlen
      have hge : answers.length ≤ s.currentIndex + 1 := le_of_eq hEq.symm
      have hrun : runGuesses answers s [g] = handleGuess answers s g.1 g.2 := rfl
      rw [hrun, handleGuess_last answers s g.1 g.2 h0' hge, hdropEq]
      refine ⟨rfl, ?_, ?_⟩ <;> simp [roundScores]
    | cons g' gs' =>
      have hlt : s.currentIndex + 1 < answers.length := by
        simp only [List.length_cons] at hlen; omega
      have hrun : runGuesses answers s (g :: g' :: gs') =
          runGuesses answers (handleGuess answers s g.1 g.2) (g' :: gs') := rfl
      rw [hrun, handleGuess_step answers s g.1 g.2 h0' hlt]
      have hlen' : (s.currentIndex + 1) + (g' :: gs').length = answers.length := by
        simp only [List.length_cons] at hlen ⊢
        omega
      have ihr := ih (⟨s.currentIndex + 1,
            ScoreVal.num (roundScoreOf (answers.getD s.currentIndex ⟨(""), 0, 0⟩) (g.1, g.2)),
            s.totalScore + roundScoreOf (answers.getD s.currentIndex ⟨(""), 0, 0⟩) (g.1, g.2),
            ("score-animation"), s.isDone, some (g.1, g.2), true,
            some (answers.getD s.currentIndex ⟨(""), 0, 0⟩)⟩ : AppState) h0 hlen' (by simp)
      obtain ⟨ih1, ih2, ih3⟩ := ihr
      refine ⟨ih1, ?_, ?_⟩
      · rw [ih2, hdropEq]
        simp [roundScores, add_assoc]
      · rw [ih3, hdropEq]
        simp [roundScores, add_assoc]

/-- C1: after exactly one guess per catalog site, the session is complete
(`isDone = 1`), the cumulative score is the sum of the individual round
scores, and the final summary text carries exactly that cumulative score. -/
theorem session_completes_with_total (answers : List Location)
    (guesses : List (ℝ × ℝ)) (h1 : answers ≠ [])
    (h2 : guesses.length = answers.length) :
    (runGuesses answers initState guesses).isDone = 1 ∧
    (runGuesses answers initState guesses).totalScore = (roundScores answers guesses).sum ∧
    (runGuesses answers initState guesses).score =
      ScoreVal.txt ("You won with a score of " ++
        toString (runGuesses answers initState guesses).totalScore ++ "!") := by
  have hne : guesses ≠ [] := by
    intro h
    subst h
    exact h1 (List.length_eq_zero.mp h2.symm)
  have h := runGuesses_complete answers guesses initState rfl (by simpa [initState] using h2) hne
  obtain ⟨ha, hb, hc⟩ := h
  have hb' : (runGuesses answers initState guesses).totalScore =
      (roundScores answers guesses).sum := by
    simpa [initState] using hb
  refine ⟨ha, hb', ?_⟩
  rw [hc, hb']
  simp [initState]

/-- Witness for `session_completes_with_total`: the five-site catalog with five
concrete guesses. -/
theorem session_completes_with_total_witness :
    (runGuesses baseAnswers initState
        [(0, 0), (10, 10), (20, 20), (30, 30), (40, 40)]).isDone = 1 ∧
    (runGuesses baseAnswers initState
        [(0, 0), (10, 10), (20, 20), (30, 30), (40, 40)]).totalScore =
      (roundScores baseAnswers [(0, 0), (10, 10), (20, 20), (30, 30), (40, 40)]).sum ∧
    (runGuesses baseAnswers initState
        [(0, 0), (10, 10), (20, 20), (30, 30), (40, 40)]).score =
      ScoreVal.txt ("You won with a score of " ++
        toString (runGuesses baseAnswers initState
          [(0, 0), (10, 10), (20, 20), (30, 30), (40, 40)]).totalScore ++ "!") :=
  session_completes_with_total baseAnswers _ (by simp [baseAnswers]) (by simp [baseAnswers])

/-- The session-index invariant: while the session is not complete, the current
round index is a valid index into the catalog. -/
def indexInvariant (answers : List Location) (s : AppState) : Prop :=
  s.isDone ≠ 1 → s.currentIndex < answers.length

/-- A single guess preserves the index invariant. -/
lemma handleGuess_preserves_invariant (answers : List Location) (s : AppState)
    (lat lon : ℝ) (h : indexInvariant answers s) :
    indexInvariant answers (handleGuess answers s lat lon) := by
  by_cases h0 : s.isDone = 1
  · rw [guess_after_completion_noop answers s lat lon h0]
    exact h
  · by_cases hlt : s.currentIndex + 1 < answers.length
    · rw [handleGuess_step answers s lat lon h0 hlt]
      intro _
      exact hlt
    · rw [handleGuess_last answers s lat lon h0 (by omega)]
      intro hd
      exact absurd rfl hd

/-- Any sequence of guesses preserves the index invariant. -/
lemma runGuesses_preserves_invariant (answers : List Location) :
    ∀ (guesses : List (ℝ × ℝ)) (s : AppState), indexInvariant answers s →
      indexInvariant answers (runGuesses answers s guesses) := by
  intro guesses
  induction guesses with
  | nil => intro s h; exact h
  | cons g gs ih =>
    intro s h
    exact ih _ (handleGuess_preserves_invariant answers s g.1 g.2 h)

/-- C9: in every state reachable by any sequence of guesses from the initial
state of a nonempty catalog, `currentIndex` is a valid catalog index while the
session is not complete, and every single call to `handleGuess` preserves this
invariant. -/
theorem current_index_always_valid (answers : List Location) (h : answers ≠ []) :
    (∀ guesses : List (ℝ × ℝ),
      indexInvariant answers (runGuesses answers initState guesses)) ∧
    (∀ (s : AppState) (lat lon : ℝ), indexInvariant answers s →
      indexInvariant answers (handleGuess answers s lat lon)) := by
  constructor
  · intro guesses
    apply runGuesses_preserves_invariant
    intro _
    exact List.length_pos.mpr h
  · intro s lat lon hs
    exact handleGuess_preserves_invariant answers s lat lon hs

/-- Witness for `current_index_always_valid` on the concrete catalog. -/
theorem current_index_always_valid_witness :
    (∀ guesses : List (ℝ × ℝ),
      indexInvariant baseAnswers (runGuesses baseAnswers initState guesses)) ∧
    (∀ (s : AppState) (lat lon : ℝ), indexInvariant baseAnswers s →
      indexInvariant baseAnswers (handleGuess baseAnswers s lat lon)) :=
  current_index_always_valid baseAnswers (by simp [baseAnswers])

/-- Fourth power over an interval is controlled by both endpoint powers. -/
lemma pow4_le_of_mem {x lo hi : ℝ} (h1 : lo ≤ x) (h2 : x ≤ hi) :
    x ^ 4 ≤ lo ^ 4 + hi ^ 4 := by
  rcases le_or_lt x 0 with hx | hx
  · have hneg : (-x) ^ 4 ≤ (-lo) ^ 4 :=
      pow_le_pow_left (by linarith) (by linarith) 4
    have h4 : (0:ℝ) ≤ hi ^ 4 := by positivity
    nlinarith
  · have hh : x ^ 4 ≤ hi ^ 4 := pow_le_pow_left hx.le h2 4
    have h4 : (0:ℝ) ≤ lo ^ 4 := by positivity
    linarith

/-- The cubic Taylor polynomial of `sin` is monotone on `[-1, 1]`. -/
lemma taylor_cubic_mono {x lo hi : ℝ} (h1 : lo ≤ x) (h2 : x ≤ hi)
    (hlo : -1 ≤ lo) (hhi : hi ≤ 1) :
    lo - lo ^ 3 / 6 ≤ x - x ^ 3 / 6 ∧ x - x ^ 3 / 6 ≤ hi - hi ^ 3 / 6 := by
  have hx2 : x ^ 2 ≤ 1 := by
    nlinarith [mul_nonneg (by linarith : (0:ℝ) ≤ 1 - x) (by linarith : (0:ℝ) ≤ 1 + x)]
  have hlo2 : lo ^ 2 ≤ 1 := by
    nlinarith [mul_nonneg (by linarith : (0:ℝ) ≤ 1 - lo) (by linarith : (0:ℝ) ≤ 1 + lo)]
  have hhi2 : hi ^ 2 ≤ 1 := by
    nlinarith [mul_nonneg (by linarith : (0:ℝ) ≤ 1 - hi) (by linarith : (0:ℝ) ≤ 1 + hi)]
  constructor
  · have hxlo : x * lo ≤ 1 := by nlinarith [sq_nonneg (x - lo)]
    have hge : 0 ≤ (x - lo) * (6 - (x ^ 2 + x * lo + lo ^ 2)) :=
      mul_nonneg (by linarith) (by linarith)
    nlinarith [hge]
  · have hxhi : x * hi ≤ 1 := by nlinarith [sq_nonneg (x - hi)]
    have hge : 0 ≤ (hi - x) * (6 - (x ^ 2 + x * hi + hi ^ 2)) :=
      mul_nonneg (by linarith) (by linarith)
    nlinarith [hge]

/-- Taylor enclosure of `sin` on a subinterval of `[-1, 1]`. -/
lemma sin_enclosure {x lo hi : ℝ} (h1 : lo ≤ x) (h2 : x ≤ hi)
    (hlo : -1 ≤ lo) (hhi : hi ≤ 1) :
    lo - lo ^ 3 / 6 - (lo ^ 4 + hi ^ 4) * (5 / 96) ≤ sin x ∧
      sin x ≤ hi - hi ^ 3 / 6 + (lo ^ 4 + hi ^ 4) * (5 / 96) := by
  have hxabs : |x| ≤ 1 := abs_le.2 ⟨by linarith, by linarith⟩
  have hb := Real.sin_bound hxabs
  have habs : |x| ^ 4 = x ^ 4 := by
    rw [← abs_pow]
    exact abs_of_nonneg (by positivity)
  rw [habs] at hb
  have h4 := pow4_le_of_mem h1 h2
  obtain ⟨hm1, hm2⟩ := taylor_cubic_mono h1 h2 hlo hhi
  have hb' := abs_le.mp hb
  constructor <;> linarith [hb'.1, hb'.2]

/-- Decimal enclosure of `sin` from an angle enclosure. -/
lemma sin_in {x lo hi slo shi : ℝ} (h1 : lo ≤ x) (h2 : x ≤ hi)
    (hlo : -1 ≤ lo) (hhi : hi ≤ 1)
    (hA : slo ≤ lo - lo ^ 3 / 6 - (lo ^ 4 + hi ^ 4) * (5 / 96))
    (hB : hi - hi ^ 3 / 6 + (lo ^ 4 + hi ^ 4) * (5 / 96) ≤ shi) :
    slo ≤ sin x ∧ sin x ≤ shi := by
  obtain ⟨ha, hb⟩ := sin_enclosure h1 h2 hlo hhi
  exact ⟨le_trans hA ha, le_trans hb hB⟩

/-- Interval product bound for nonnegative intervals. -/
lemma mul_mem_of_bounds {x y xl xh yl yh : ℝ} (hx1 : xl ≤ x) (hx2 : x ≤ xh)
    (hy1 : yl ≤ y) (hy2 : y ≤ yh) (hxl : 0 ≤ xl) (hyl : 0 ≤ yl) :
    xl * yl ≤ x * y ∧ x * y ≤ xh * yh :=
  ⟨mul_le_mul hx1 hy1 hyl (hxl.trans hx1),
   mul_le_mul hx2 hy2 (hyl.trans hy1) ((hxl.trans hx1).trans hx2)⟩

/-- Squaring (as a product) an interval of negative numbers. -/
lemma mul_self_mem_of_neg {x lo hi : ℝ} (h1 : lo ≤ x) (h2 : x ≤ hi) (hhi : hi ≤ 0) :
    hi ^ 2 ≤ x * x ∧ x * x ≤ lo ^ 2 := by
  constructor
  · nlinarith [mul_nonneg (by linarith : (0:ℝ) ≤ hi - x) (by linarith : (0:ℝ) ≤ -(x + hi))]
  · nlinarith [mul_nonneg (by linarith : (0:ℝ) ≤ x - lo) (by linarith : (0:ℝ) ≤ -(lo + x))]

/-- Squaring an interval of nonnegative numbers. -/
lemma sq_mem_of_pos {x lo hi : ℝ} (h1 : lo ≤ x) (h2 : x ≤ hi) (hlo : 0 ≤ lo) :
    lo ^ 2 ≤ x ^ 2 ∧ x ^ 2 ≤ hi ^ 2 :=
  ⟨pow_le_pow_left hlo h1 2, pow_le_pow_left (hlo.trans h1) h2 2⟩

/-- Double angle formula in the form used for interval evaluation. -/
lemma cos_double_sin_sq (y : ℝ) : cos (2 * y) = 1 - 2 * sin y ^ 2 := by
  rw [Real.cos_two_mul, Real.cos_sq']
  ring

/-- For a haversine parameter `A ∈ [0, 1)`, the `atan2` expression of the
source reduces to `arcsin √A`. -/
lemma atan2_sqrt_eq_arcsin {A : ℝ} (h0 : 0 ≤ A) (h1 : A < 1) :
    atan2 (sqrt A) (sqrt (1 - A)) = arcsin (sqrt A) := by
  have hApos : (0:ℝ) < 1 - A := by linarith
  have hpos : 0 < sqrt (1 - A) := Real.sqrt_pos.mpr hApos
  have hne : sqrt (1 - A) ≠ 0 := ne_of_gt hpos
  unfold atan2
  rw [if_pos hpos, Real.arctan_eq_arcsin]
  congr 1
  have hsq : (sqrt A / sqrt (1 - A)) ^ 2 = A / (1 - A) := by
    rw [div_pow, Real.sq_sqrt h0, Real.sq_sqrt hApos.le]
  rw [hsq]
  have hne' : (1 - A) ≠ 0 := ne_of_gt hApos
  have hplus : 1 + A / (1 - A) = (1 - A)⁻¹ := by
    field_simp
  rw [hplus, Real.sqrt_inv, div_eq_mul_inv _ (sqrt (1 - A))⁻¹, inv_inv,
    div_mul_cancel₀ _ hne]

/-- Lower bound on `arcsin` by comparison with `sin` at a test angle. -/
lemma arcsin_ge {s t : ℝ} (hts : sin t ≤ s) (ht1 : -(π/2) ≤ t) (ht2 : t ≤ π/2) :
    t ≤ arcsin s := by
  have h := Real.monotone_arcsin hts
  rwa [Real.arcsin_sin ht1 ht2] at h

/-- Upper bound on `arcsin` by comparison with `sin` at a test angle. -/
lemma arcsin_le {s t : ℝ} (hts : s ≤ sin t) (ht1 : -(π/2) ≤ t) (ht2 : t ≤ π/2) :
    arcsin s ≤ t := by
  have h := Real.monotone_arcsin hts
  rwa [Real.arcsin_sin ht1 ht2] at h

/-- Interval enclosure of `cos (46.8015π/180)`, the first scenario latitude. -/
lemma cos_phi1_bounds :
    (0.683968:ℝ) ≤ cos (46.8015 * π / 180) ∧ cos (46.8015 * π / 180) ≤ 0.685108 := by
  have hpl := Real.pi_gt_d6
  have hpu := Real.pi_lt_d6
  have he1 : (0.10210501:ℝ) ≤ 46.8015 * π / 1440 := by nlinarith
  have he2 : (46.8015:ℝ) * π / 1440 ≤ 0.10210505 := by nlinarith
  have hse : (0.101916:ℝ) ≤ sin (46.8015 * π / 1440) ∧
      sin (46.8015 * π / 1440) ≤ 0.101939 :=
    sin_in he1 he2 (by norm_num) (by norm_num) (by norm_num) (by norm_num)
  have hcq : (0.979216:ℝ) ≤ cos (46.8015 * π / 720) ∧
      cos (46.8015 * π / 720) ≤ 0.979227 := by
    have hrw : (46.8015:ℝ) * π / 720 = 2 * (46.8015 * π / 1440) := by ring
    rw [hrw, cos_double_sin_sq]
    have hsq := sq_mem_of_pos hse.1 hse.2 (by norm_num)
    constructor <;> linarith [hsq.1, hsq.2]
  have hq1 : (0.20421002:ℝ) ≤ 46.8015 * π / 720 := by nlinarith
  have hq2 : (46.8015:ℝ) * π / 720 ≤ 0.20421009 := by nlinarith
  have hsq1 : (0.202609:ℝ) ≤ sin (46.8015 * π / 720) ∧
      sin (46.8015 * π / 720) ≤ 0.202972 :=
    sin_in hq1 hq2 (by norm_num) (by norm_num) (by norm_num) (by norm_num)
  have hsh : (0.396795:ℝ) ≤ sin (46.8015 * π / 360) ∧
      sin (46.8015 * π / 360) ≤ 0.397512 := by
    have hrw : (46.8015:ℝ) * π / 360 = 2 * (46.8015 * π / 720) := by ring
    rw [hrw, Real.sin_two_mul]
    have hm := mul_mem_of_bounds hsq1.1 hsq1.2 hcq.1 hcq.2 (by norm_num) (by norm_num)
    have hr : 2 * sin (46.8015 * π / 720) * cos (46.8015 * π / 720) =
        2 * (sin (46.8015 * π / 720) * cos (46.8015 * π / 720)) := by ring
    rw [hr]
    constructor <;> linarith [hm.1, hm.2]
  have hrw : (46.8015:ℝ) * π / 180 = 2 * (46.8015 * π / 360) := by ring
  rw [hrw, cos_double_sin_sq]
  have hsq := sq_mem_of_pos hsh.1 hsh.2 (by norm_num)
  constructor <;> linarith [hsq.1, hsq.2]

/-- Interval enclosure of `cos (42.891411π/180)`, the second scenario latitude. -/
lemma cos_phi2_bounds :
    (0.732278:ℝ) ≤ cos (42.891411 * π / 180) ∧ cos (42.891411 * π / 180) ≤ 0.733023 := by
  have hpl := Real.pi_gt_d6
  have hpu := Real.pi_lt_d6
  have he1 : (0.09357452:ℝ) ≤ 42.891411 * π / 1440 := by nlinarith
  have he2 : (42.891411:ℝ) * π / 1440 ≤ 0.09357456 := by nlinarith
  have hse : (0.093429:ℝ) ≤ sin (42.891411 * π / 1440) ∧
      sin (42.891411 * π / 1440) ≤ 0.093446 :=
    sin_in he1 he2 (by norm_num) (by norm_num) (by norm_num) (by norm_num)
  have hcq : (0.982535:ℝ) ≤ cos (42.891411 * π / 720) ∧
      cos (42.891411 * π / 720) ≤ 0.982543 := by
    have hrw : (42.891411:ℝ) * π / 720 = 2 * (42.891411 * π / 1440) := by ring
    rw [hrw, cos_double_sin_sq]
    have hsq := sq_mem_of_pos hse.1 hse.2 (by norm_num)
    constructor <;> linarith [hsq.1, hsq.2]
  have hq1 : (0.18714904:ℝ) ≤ 42.891411 * π / 720 := by nlinarith
  have hq2 : (42.891411:ℝ) * π / 720 ≤ 0.18714911 := by nlinarith
  have hsq1 : (0.185928:ℝ) ≤ sin (42.891411 * π / 720) ∧
      sin (42.891411 * π / 720) ≤ 0.186185 :=
    sin_in hq1 hq2 (by norm_num) (by norm_num) (by norm_num) (by norm_num)
  have hsh : (0.365361:ℝ) ≤ sin (42.891411 * π / 360) ∧
      sin (42.891411 * π / 360) ≤ 0.36587 := by
    have hrw : (42.891411:ℝ) * π / 360 = 2 * (42.891411 * π / 720) := by ring
    rw [hrw, Real.sin_two_mul]
    have hm := mul_mem_of_bounds hsq1.1 hsq1.2 hcq.1 hcq.2 (by norm_num) (by norm_num)
    have hr : 2 * sin (42.891411 * π / 720) * cos (42.891411 * π / 720) =
        2 * (sin (42.891411 * π / 720) * cos (42.891411 * π / 720)) := by ring
    rw [hr]
    constructor <;> linarith [hm.1, hm.2]
  have hrw : (42.891411:ℝ) * π / 180 = 2 * (42.891411 * π / 360) := by ring
  rw [hrw, cos_double_sin_sq]
  have hsq := sq_mem_of_pos hsh.1 hsh.2 (by norm_num)
  constructor <;> linarith [hsq.1, hsq.2]

/-- From an enclosure of the haversine parameter `A`, an enclosure of the
resulting distance value `R * (2 * atan2 √A √(1-A)) / 1000`. -/
lemma haversine_core_bounds {A : ℝ} (h0 : (0.0036202:ℝ) ≤ A) (h1 : A ≤ 0.0036273) :
    (766.4:ℝ) ≤ 6371e3 * (2 * atan2 (sqrt A) (sqrt (1 - A))) / 1000 ∧
      6371e3 * (2 * atan2 (sqrt A) (sqrt (1 - A))) / 1000 ≤ 767.9 := by
  have hpl := Real.pi_gt_d6
  rw [atan2_sqrt_eq_arcsin (by linarith) (by linarith)]
  have hsqA1 : (0.0601680:ℝ) ≤ sqrt A :=
    (Real.le_sqrt (by norm_num) (by linarith)).mpr (by nlinarith)
  have hsqA2 : sqrt A ≤ 0.0602271 := by
    have h := Real.sqrt_le_sqrt (show A ≤ (0.0602271:ℝ) ^ 2 by nlinarith)
    rwa [Real.sqrt_sq (by norm_num)] at h
  have hstl : (0.06:ℝ) ≤ sin 0.0601680 ∧ sin (0.0601680:ℝ) ≤ 0.0601680 :=
    sin_in (le_refl _) (le_refl _) (by norm_num) (by norm_num) (by norm_num) (by norm_num)
  have hsth : (0.0602271:ℝ) ≤ sin 0.0602650 ∧ sin (0.0602650:ℝ) ≤ 0.0603 :=
    sin_in (le_refl _) (le_refl _) (by norm_num) (by norm_num) (by norm_num) (by norm_num)
  have hth1 : (0.0601680:ℝ) ≤ arcsin (sqrt A) :=
    arcsin_ge (le_trans hstl.2 hsqA1) (by linarith) (by linarith)
  have hth2 : arcsin (sqrt A) ≤ 0.0602650 :=
    arcsin_le (le_trans hsqA2 hsth.1) (by linarith) (by linarith)
  constructor <;> [linarith; linarith]

set_option maxHeartbeats 1000000 in
/-- The scenario of the spec: target Plains of Abraham, guess at the Start of
the St. Lawrence Seaway.  The haversine distance lies in `[766.4, 767.9]` km
(not near 706 km). -/
lemma scenario_distance_bounds :
    (766.4:ℝ) ≤ haversineDistance 46.8015 (-71.2201) 42.891411 (-79.251964) ∧
      haversineDistance 46.8015 (-71.2201) 42.891411 (-79.251964) ≤ 767.9 := by
  have hpl := Real.pi_gt_d6
  have hpu := Real.pi_lt_d6
  have hx1a : (-0.034121968:ℝ) ≤ (42.891411 - 46.8015) * π / 180 / 2 := by nlinarith
  have hx1b : (42.891411 - 46.8015) * π / 180 / 2 ≤ -0.034121956 := by nlinarith
  have hs1 : (-0.0341155:ℝ) ≤ sin ((42.891411 - 46.8015) * π / 180 / 2) ∧
      sin ((42.891411 - 46.8015) * π / 180 / 2) ≤ -0.0341151 :=
    sin_in hx1a hx1b (by norm_num) (by norm_num) (by norm_num) (by norm_num)
  have hs1sq := mul_self_mem_of_neg hs1.1 hs1.2 (by norm_num)
  have hx2a : (-0.070091244:ℝ) ≤ (-79.251964 - -71.2201) * π / 180 / 2 := by nlinarith
  have hx2b : (-79.251964 - -71.2201) * π / 180 / 2 ≤ -0.070091221 := by nlinarith
  have hs2 : (-0.0700364:ℝ) ≤ sin ((-79.251964 - -71.2201) * π / 180 / 2) ∧
      sin ((-79.251964 - -71.2201) * π / 180 / 2) ≤ -0.0700313 :=
    sin_in hx2a hx2b (by norm_num) (by norm_num) (by norm_num) (by norm_num)
  have hs2sq := mul_self_mem_of_neg hs2.1 hs2.2 (by norm_num)
  have hc1 := cos_phi1_bounds
  have hc2 := cos_phi2_bounds
  have hcc := mul_mem_of_bounds hc1.1 hc1.2 hc2.1 hc2.2 (by norm_num) (by norm_num)
  have hcc' : (0.500854:ℝ) ≤ cos (46.8015 * π / 180) * cos (42.891411 * π / 180) ∧
      cos (46.8015 * π / 180) * cos (42.891411 * π / 180) ≤ 0.5022 :=
    ⟨le_trans (by norm_num) hcc.1, le_trans hcc.2 (by norm_num)⟩
  have hs2sq' : (0.00490438:ℝ) ≤ sin ((-79.251964 - -71.2201) * π / 180 / 2) *
        sin ((-79.251964 - -71.2201) * π / 180 / 2) ∧
      sin ((-79.251964 - -71.2201) * π / 180 / 2) *
        sin ((-79.251964 - -71.2201) * π / 180 / 2) ≤ 0.0049051 :=
    ⟨le_trans (by norm_num) hs2sq.1, le_trans hs2sq.2 (by norm_num)⟩
  have ht2 := mul_mem_of_bounds hcc'.1 hcc'.2 hs2sq'.1 hs2sq'.2 (by norm_num) (by norm_num)
  have hassoc : cos (46.8015 * π / 180) * cos (42.891411 * π / 180) *
      sin ((-79.251964 - -71.2201) * π / 180 / 2) *
      sin ((-79.251964 - -71.2201) * π / 180 / 2) =
      (cos (46.8015 * π / 180) * cos (42.891411 * π / 180)) *
      (sin ((-79.251964 - -71.2201) * π / 180 / 2) *
       sin ((-79.251964 - -71.2201) * π / 180 / 2)) := by ring
  unfold haversineDistance
  dsimp only
  exact haversine_core_bounds
    (by linarith [hs1sq.1, ht2.1, hassoc]) (by linarith [hs1sq.2, ht2.2, hassoc])

set_option maxHeartbeats 1000000 in
/-- Any distance in `[766.4, 767.9]` km scores exactly 4 points. -/
lemma score_of_scenario_distance {d : ℝ} (h1 : (766.4:ℝ) ≤ d) (h2 : d ≤ 767.9) :
    calculateScore d defaultSize = 4 := by
  unfold calculateScore defaultSize
  have hq : ∀ x : ℝ, -10 * x / 3176.862 = x * (-10000/3176862) := by
    intro x
    rw [show (3176.862:ℝ) = 3176862/1000 from by norm_num]
    ring
  rw [hq]
  have hEl : -((7679000:ℝ)/3176862) ≤ d * (-10000/3176862) := by linarith
  have hEh : d * (-10000/3176862) ≤ -((7664000:ℝ)/3176862) := by linarith
  have hub := Real.exp_le_exp.mpr hEh
  have hlo2 := Real.exp_le_exp.mpr hEl
  have hsum : (100/9 : ℝ) <
      ∑ i ∈ Finset.range 12, ((7664000:ℝ)/3176862) ^ i / (Nat.factorial i) := by
    simp only [Finset.sum_range_succ, Finset.sum_range_zero]
    norm_num [Nat.factorial]
  have hexp_lo := Real.sum_le_exp_of_nonneg (by norm_num : (0:ℝ) ≤ 7664000/3176862) 12
  have h1exp : (100/9:ℝ) < exp ((7664000:ℝ)/3176862) := lt_of_lt_of_le hsum hexp_lo
  have h9 : exp (-((7664000:ℝ)/3176862)) < 9/100 := by
    rw [Real.exp_neg]
    have hpos := Real.exp_pos ((7664000:ℝ)/3176862)
    have hinv := mul_inv_cancel₀ (ne_of_gt hpos)
    have hinvpos : (0:ℝ) < (exp ((7664000:ℝ)/3176862))⁻¹ := inv_pos.mpr hpos
    nlinarith [mul_pos (sub_pos.2 h1exp) hinvpos]
  have hzhi2 : ((7679000:ℝ)/3176862) = 2 + 662638/1588431 := by norm_num
  have hbb := @Real.exp_bound' (662638/1588431:ℝ) (by norm_num) (by norm_num) 4 (by norm_num)
  have hyub : exp ((662638:ℝ)/1588431) ≤ 1.5186 := by
    refine hbb.trans ?_
    simp only [Finset.sum_range_succ, Finset.sum_range_zero]
    norm_num [Nat.factorial]
  have he2 : exp (2:ℝ) = exp 1 * exp 1 := by
    rw [← Real.exp_add]
    norm_num
  have he1 := Real.exp_one_lt_d9
  have hexp2 : exp (2:ℝ) < 7.3890561 := by
    rw [he2]
    have hee := mul_le_mul he1.le he1.le (Real.exp_pos 1).le
      (by norm_num : (0:ℝ) ≤ 2.7182818286)
    have hval : (2.7182818286:ℝ) * 2.7182818286 < 7.3890561 := by norm_num
    linarith
  have hzhi_exp : exp ((7679000:ℝ)/3176862) < 100/7 := by
    rw [hzhi2, Real.exp_add]
    have hmul := mul_le_mul hexp2.le hyub (Real.exp_pos _).le (by norm_num)
    have hval : (7.3890561:ℝ) * 1.5186 < 100/7 := by norm_num
    linarith
  have h7 : (7/100:ℝ) < exp (-((7679000:ℝ)/3176862)) := by
    rw [Real.exp_neg]
    have hpos := Real.exp_pos ((7679000:ℝ)/3176862)
    have hinv := mul_inv_cancel₀ (ne_of_gt hpos)
    have hinvpos : (0:ℝ) < (exp ((7679000:ℝ)/3176862))⁻¹ := inv_pos.mpr hpos
    nlinarith [mul_pos (sub_pos.2 hzhi_exp) hinvpos]
  have hv1 : (3.5:ℝ) < 50 * exp (d * (-10000/3176862)) := by linarith
  have hv2 : 50 * exp (d * (-10000/3176862)) < (4.5:ℝ) := by linarith
  rw [round_eq, Int.floor_eq_iff]
  constructor
  · push_cast
    linarith
  · push_cast
    linarith

/-- Counterexample to the spec's concrete scenario: for target
`(46.8015, -71.2201)` and guess `(42.891411, -79.251964)` the distance exceeds
750 km (so it is not ≈ 706 km) and the score is not 6. -/
theorem scenario_claim_false :
    (750:ℝ) < haversineDistance 46.8015 (-71.2201) 42.891411 (-79.251964) ∧
      calculateScore (haversineDistance 46.8015 (-71.2201) 42.891411 (-79.251964))
        defaultSize ≠ 6 := by
  obtain ⟨hd1, hd2⟩ := scenario_distance_bounds
  refine ⟨by linarith, ?_⟩
  rw [score_of_scenario_distance hd1 hd2]
  decide

/-- C5 (amended): for target `(46.8015, -71.2201)` and guess
`(42.891411, -79.251964)` the haversine distance is ≈ 767 km (within
`(766, 768)`), and the score of that distance is 4 points. -/
theorem scenario_distance_and_score :
    (766:ℝ) < haversineDistance 46.8015 (-71.2201) 42.891411 (-79.251964) ∧
      haversineDistance 46.8015 (-71.2201) 42.891411 (-79.251964) < 768 ∧
      calculateScore (haversineDistance 46.8015 (-71.2201) 42.891411 (-79.251964))
        defaultSize = 4 := by
  obtain ⟨hd1, hd2⟩ := scenario_distance_bounds
  exact ⟨by linarith, by linarith, score_of_scenario_distance hd1 hd2⟩
